import Mathlib

/-!
Verification of the text-integrity core of the `fix-augment` extension.

The definitions below are a shallow embedding of the TypeScript sources:
* `src/constants/index.ts` (limits, language patterns),
* `src/services/ValidationService.ts` (quote escaping, size check, display
  sanitizing),
* `src/services/FormattingService.ts` (output formatting, language
  detection, HTML escaping),
* `src/services/ContextService.ts` (session counters, context health).

JavaScript strings are modelled as Lean `String`/`List Char`, JS numbers
as `Nat`/`ℚ` (exact arithmetic), fallible external library calls
(`marked`, `highlight.js`) as `Except`-returning capability records, and
thrown exceptions as `Except`.
-/

/-! ## Basic list/char helpers used by the embedding -/

/-- `startsWithL needle hay`: `needle` is a prefix of `hay`. -/
def startsWithL : List Char → List Char → Bool
  | [], _ => true
  | _ :: _, [] => false
  | a :: as, b :: bs => a = b && startsWithL as bs

/-- `containsSub needle hay`: `needle` occurs contiguously in `hay`
(the semantics of an unanchored literal JS regex `test`). -/
def containsSub (needle : List Char) : List Char → Bool
  | [] => startsWithL needle []
  | c :: t => startsWithL needle (c :: t) || containsSub needle t

/-- Case-insensitive prefix test (JS `i` flag on literal characters). -/
def startsWithCi : List Char → List Char → Bool
  | [], _ => true
  | _ :: _, [] => false
  | a :: as, b :: bs => a.toLower = b.toLower && startsWithCi as bs

/-- Earliest occurrence of the literal `needle` in `hay`; returns the text
before the occurrence and the text after it (JS lazy `[\s\S]*?` followed by
a literal). -/
def findLit (needle : List Char) : List Char → Option (List Char × List Char)
  | [] => if startsWithL needle [] then some ([], []) else none
  | c :: cs =>
    if startsWithL needle (c :: cs) then some ([], (c :: cs).drop needle.length)
    else
      match findLit needle cs with
      | some (pre, rest) => some (c :: pre, rest)
      | none => none

/-- Remainder after the earliest case-insensitive occurrence of `needle`. -/
def findCiRest (needle : List Char) : List Char → Option (List Char)
  | [] => if startsWithCi needle [] then some [] else none
  | c :: cs =>
    if startsWithCi needle (c :: cs) then some ((c :: cs).drop needle.length)
    else findCiRest needle cs

/-- Global single-character replacement: the embedding of
`text.replace(/c/g, repl)` for a one-character pattern. -/
def replaceChar (target : Char) (repl : List Char) : List Char → List Char
  | [] => []
  | c :: cs => (if c = target then repl else [c]) ++ replaceChar target repl cs

/-- JS `\s` character class (ECMAScript WhiteSpace ∪ LineTerminator), also
the character set stripped by `String.prototype.trim`. -/
def jsSpace (c : Char) : Bool :=
  c = ' ' || c = '\t' || c = '\n' || c = '\r' ||
  c = Char.ofNat 0x0B || c = Char.ofNat 0x0C || c = Char.ofNat 0xA0 ||
  c = Char.ofNat 0x1680 || (0x2000 ≤ c.toNat && c.toNat ≤ 0x200A) ||
  c = Char.ofNat 0x2028 || c = Char.ofNat 0x2029 || c = Char.ofNat 0x202F ||
  c = Char.ofNat 0x205F || c = Char.ofNat 0x3000 || c = Char.ofNat 0xFEFF

/-- JS LineTerminator characters (the characters `.` does not match). -/
def lineTerm (c : Char) : Bool :=
  c = '\n' || c = '\r' || c = Char.ofNat 0x2028 || c = Char.ofNat 0x2029

/-- JS `\w` character class `[A-Za-z0-9_]`. -/
def wordChar (c : Char) : Bool :=
  ('a' ≤ c && c ≤ 'z') || ('A' ≤ c && c ≤ 'Z') || ('0' ≤ c && c ≤ '9') || c = '_'

/-- The embedding of `String.prototype.trim`. -/
def jsTrim (l : List Char) : List Char :=
  ((l.dropWhile jsSpace).reverse.dropWhile jsSpace).reverse

/-! ## `src/constants/index.ts` : `VALIDATION_LIMITS` and defaults -/

/-- `VALIDATION_LIMITS.MAX_SAFE_INPUT_SIZE` from `src/constants/index.ts`. -/
def MAX_SAFE_INPUT_SIZE : Nat := 8000

/-- `VALIDATION_LIMITS.MIN_CHUNK_SIZE` from `src/constants/index.ts`. -/
def MIN_CHUNK_SIZE : Nat := 1000

/-- `VALIDATION_LIMITS.MAX_CHUNK_SIZE` from `src/constants/index.ts`. -/
def MAX_CHUNK_SIZE : Nat := 10000

/-- `VALIDATION_LIMITS.CONTEXT_OVERLAP_SIZE` from `src/constants/index.ts`. -/
def CONTEXT_OVERLAP_SIZE : Nat := 200

/-- `DEFAULT_CONFIG.CONTEXT_REFRESH_THRESHOLD` from `src/constants/index.ts`. -/
def CONTEXT_REFRESH_THRESHOLD : Nat := 10

/-! ## `ValidationService.fixDoubleQuotes`

`text.replace(/(?<!\\)"/g, '\\"')`: every double quote whose immediately
preceding character in the *input* is not a backslash is replaced by `\"`.
The lookbehind inspects the original string, so the replacement is a
one-character-lookback map over the input. -/

/-- Scan with the previous input character (`none` at the string start,
where the lookbehind `(?<!\\)` vacuously succeeds). -/
def fixDQAux : Option Char → List Char → List Char
  | _, [] => []
  | prev, c :: rest =>
    (if c = '"' && prev ≠ some '\\' then ['\\', '"'] else [c]) ++
      fixDQAux (some c) rest

/-- `ValidationService.fixDoubleQuotes` (src/services/ValidationService.ts:84-92).
The `if (!text) return text` guard is the identity on the empty string. -/
def fixDoubleQuotes (text : String) : String :=
  ⟨fixDQAux none text.data⟩

/-- `ValidationService.hasUnescapedDoubleQuotes`
(src/services/ValidationService.ts:97-99): `/(?<!\\)"/.test(text)`. -/
def hasUnescapedDoubleQuotes (text : String) : Bool :=
  let rec go : Option Char → List Char → Bool
    | _, [] => false
    | prev, c :: rest => (c = '"' && prev ≠ some '\\') || go (some c) rest
  go none text.data

/-! ## `ValidationService.sanitizeText` and `FormattingService.escapeHtml` -/

/-- `ValidationService.sanitizeText` (src/services/ValidationService.ts:193-204):
five sequential global replaces, in source order `<`, `>`, `"`, `'`, `/`.
The ampersand is *not* replaced. Empty input returns `''`. -/
def sanitizeText (text : String) : String :=
  ⟨replaceChar '/' "&#x2F;".data
    (replaceChar '\'' "&#x27;".data
      (replaceChar '"' "&quot;".data
        (replaceChar '>' "&gt;".data
          (replaceChar '<' "&lt;".data text.data))))⟩

/-- `FormattingService.escapeHtml` (src/services/FormattingService.ts:225-232):
five sequential global replaces, `&` first, then `<`, `>`, `"`, `'`. -/
def escapeHtml (text : String) : String :=
  ⟨replaceChar '\'' "&#039;".data
    (replaceChar '"' "&quot;".data
      (replaceChar '>' "&gt;".data
        (replaceChar '<' "&lt;".data
          (replaceChar '&' "&amp;".data text.data))))⟩

/-- Per-character action of `sanitizeText` (derived characterization used to
state the amended claim: `/` is escaped, `&` is not). -/
def sanitizeTextCharMap (c : Char) : List Char :=
  if c = '<' then "&lt;".data
  else if c = '>' then "&gt;".data
  else if c = '"' then "&quot;".data
  else if c = '\'' then "&#x27;".data
  else if c = '/' then "&#x2F;".data
  else [c]

/-- Per-character action of `escapeHtml` (derived characterization: acting as
a single pass is exactly "no double escaping of entities"). -/
def escapeHtmlCharMap (c : Char) : List Char :=
  if c = '&' then "&amp;".data
  else if c = '<' then "&lt;".data
  else if c = '>' then "&gt;".data
  else if c = '"' then "&quot;".data
  else if c = '\'' then "&#039;".data
  else [c]

/-! ## `ValidationService.checkInputSize` -/

/-- Result record of `checkInputSize` (`{ isLarge: boolean; suggestion?: string }`). -/
structure SizeCheck where
  isLarge : Bool
  suggestion : Option String
deriving Repr, DecidableEq

/-- `ValidationService.checkInputSize` (src/services/ValidationService.ts:104-119).
`Math.ceil(size / maxSize)` on naturals is `(size + maxSize - 1) / maxSize`. -/
def checkInputSize (text : String) : SizeCheck :=
  let size := text.length
  let maxSize := MAX_SAFE_INPUT_SIZE
  if size > maxSize then
    let ratio := (size + maxSize - 1) / maxSize
    { isLarge := true
      suggestion := some
        ("Input is " ++ toString size ++ " characters (recommended max: " ++
          toString maxSize ++ "). " ++
          "Consider breaking this into " ++ toString ratio ++
          " smaller tasks to avoid " ++
          "\"too large input\" errors and credit consumption.") }
  else { isLarge := false, suggestion := none }

/-! ## `ContextService` (src/services/ContextService.ts)

The service's four mutable fields become an explicit state record; methods
become state-passing functions. Timestamps (`Date.now()` values) are
epoch-milliseconds naturals. The configured
`fixAugment.contextRefreshThreshold` is passed explicitly. -/

/-- The four counters held by `ContextService`. -/
structure ContextState where
  contextExchangeCount : Nat
  sessionStartTime : Nat
  lastContextRefresh : Nat
  filesProcessed : Nat
deriving Repr, DecidableEq

/-- `StatusType` values used by `getContextHealth`. -/
inductive HealthStatus where
  | red
  | yellow
  | green
deriving Repr, DecidableEq

/-- `IStatusInfo` (`{ status, text }`). -/
structure IStatusInfo where
  status : HealthStatus
  text : String
deriving Repr, DecidableEq

/-- `ContextService.incrementExchangeCount` (src/services/ContextService.ts:45-48). -/
def incrementExchangeCount (st : ContextState) : ContextState :=
  { st with contextExchangeCount := st.contextExchangeCount + 1 }

/-- `ContextService.incrementFilesProcessed` (src/services/ContextService.ts:127-130). -/
def incrementFilesProcessed (st : ContextState) : ContextState :=
  { st with filesProcessed := st.filesProcessed + 1 }

/-- `ContextService.getContextHealth` (src/services/ContextService.ts:62-88).
`Math.floor(threshold * 0.7)` is modelled exactly as `7 * threshold / 10`. -/
def getContextHealth (threshold : Nat) (st : ContextState) : IStatusInfo :=
  let count := st.contextExchangeCount
  let warningThreshold := 7 * threshold / 10
  if count ≥ threshold then
    { status := .red, text := "Context refresh needed (" ++ toString count ++ " exchanges)" }
  else if count ≥ warningThreshold then
    { status := .yellow, text := "Context getting long (" ++ toString count ++ " exchanges)" }
  else
    { status := .green, text := "Context healthy (" ++ toString count ++ " exchanges)" }

/-- `ContextService.shouldRefreshContext` (src/services/ContextService.ts:93-101). -/
def shouldRefreshContext (threshold : Nat) (st : ContextState) : Bool :=
  st.contextExchangeCount ≥ threshold

/-- The persistence record of `exportSessionData`/`importSessionData`; every
field of the import argument is optional. -/
structure SessionDataRec where
  contextExchangeCount : Option Nat
  sessionStartTime : Option Nat
  lastContextRefresh : Option Nat
  filesProcessed : Option Nat
deriving Repr, DecidableEq

/-- `ContextService.exportSessionData` (src/services/ContextService.ts:220-232):
returns all four counters (all fields present). -/
def exportSessionData (st : ContextState) : SessionDataRec :=
  { contextExchangeCount := some st.contextExchangeCount
    sessionStartTime := some st.sessionStartTime
    lastContextRefresh := some st.lastContextRefresh
    filesProcessed := some st.filesProcessed }

/-- `ContextService.importSessionData` (src/services/ContextService.ts:237-256):
each field is overwritten only when present (`!== undefined`). -/
def importSessionData (st : ContextState) (data : SessionDataRec) : ContextState :=
  { contextExchangeCount := data.contextExchangeCount.getD st.contextExchangeCount
    sessionStartTime := data.sessionStartTime.getD st.sessionStartTime
    lastContextRefresh := data.lastContextRefresh.getD st.lastContextRefresh
    filesProcessed := data.filesProcessed.getD st.filesProcessed }

/-! ## Language detection (`FormattingService.detectLanguage` and
`LANGUAGE_PATTERNS` from src/constants/index.ts:105-122)

Each `LANGUAGE_PATTERNS` regex is embedded as a decidable matcher. The
regexes use only literals, the classes `\w`, `\s`, `[^}]`, `['"]`,
`[\w-]`, the quantifiers `*`/`+`/`{1,6}`, alternation, and the anchors
`^`/`$` (with or without the `m` flag), so a small token-sequence matcher
with full backtracking over class quantifiers captures `RegExp.test`
exactly. -/

/-- One element of an embedded regex: a literal, a single character from a
class, or a greedy/backtracked quantified class (`+` is one-then-star). -/
inductive Tok where
  | lit : List Char → Tok
  | cls : (Char → Bool) → Tok
  | many : (Char → Bool) → Tok
  | many1 : (Char → Bool) → Tok

/-- Fuelled matching engine: some prefix of the subject matches the token
sequence (with backtracking over quantifier lengths, so this is the
existential `RegExp` semantics at a fixed start position). Every recursive
call strictly decreases `2 * s.length + ts.length`, so the wrapper
`matchToksAt` supplies enough fuel for the `0` case to be unreachable;
fuel keeps the recursion structural, so concrete calls evaluate by
`decide`. -/
def matchToksAtF : Nat → List Tok → List Char → Bool
  | 0, _, _ => false
  | _ + 1, [], _ => true
  | f + 1, .lit l :: ts, s => startsWithL l s && matchToksAtF f ts (s.drop l.length)
  | _ + 1, .cls _ :: _, [] => false
  | f + 1, .cls p :: ts, c :: cs => p c && matchToksAtF f ts cs
  | f + 1, .many _ :: ts, [] => matchToksAtF f ts []
  | f + 1, .many p :: ts, c :: cs =>
      matchToksAtF f ts (c :: cs) || (p c && matchToksAtF f (.many p :: ts) cs)
  | _ + 1, .many1 _ :: _, [] => false
  | f + 1, .many1 p :: ts, c :: cs => p c && matchToksAtF f (.many p :: ts) cs

/-- `matchToksAt ts s`: a match of the token sequence `ts` starts at the
head of `s`. -/
def matchToksAt (ts : List Tok) (s : List Char) : Bool :=
  matchToksAtF (2 * s.length + ts.length + 1) ts s

/-- `RegExp.test` for an unanchored pattern: a match starting anywhere. -/
def searchToks (ts : List Tok) : List Char → Bool
  | [] => matchToksAt ts []
  | c :: cs => matchToksAt ts (c :: cs) || searchToks ts cs

/-- `RegExp.test` for a `^...` pattern with the `m` flag: a match starting
at the string start or immediately after a LineTerminator. -/
def searchToksLineStart (ts : List Tok) (s : List Char) : Bool :=
  let rec go : List Char → Bool
    | [] => false
    | c :: cs => (lineTerm c && matchToksAt ts cs) || go cs
  matchToksAt ts s || go s

/-- `/function|const|let|var|=>|import.*from/` (javascript). -/
def javascriptTest (code : String) : Bool :=
  containsSub "function".data code.data || containsSub "const".data code.data ||
  containsSub "let".data code.data || containsSub "var".data code.data ||
  containsSub "=>".data code.data ||
  searchToks [.lit "import".data, .many (fun c => !lineTerm c), .lit "from".data] code.data

/-- `/interface|type|enum|namespace|import.*from.*['"].*\.ts/` (typescript). -/
def typescriptTest (code : String) : Bool :=
  containsSub "interface".data code.data || containsSub "type".data code.data ||
  containsSub "enum".data code.data || containsSub "namespace".data code.data ||
  searchToks [.lit "import".data, .many (fun c => !lineTerm c), .lit "from".data,
    .many (fun c => !lineTerm c), .cls (fun c => c = '\'' || c = '"'),
    .many (fun c => !lineTerm c), .lit ".ts".data] code.data

/-- `/def\s+\w+\s*\(|import\s+\w+|from\s+\w+\s+import|class\s+\w+:/` (python). -/
def pythonTest (code : String) : Bool :=
  searchToks [.lit "def".data, .many1 jsSpace, .many1 wordChar, .many jsSpace, .lit "(".data] code.data ||
  searchToks [.lit "import".data, .many1 jsSpace, .many1 wordChar] code.data ||
  searchToks [.lit "from".data, .many1 jsSpace, .many1 wordChar, .many1 jsSpace, .lit "import".data] code.data ||
  searchToks [.lit "class".data, .many1 jsSpace, .many1 wordChar, .lit ":".data] code.data

/-- `/public\s+class|private\s+void|import\s+java\./` (java). -/
def javaTest (code : String) : Bool :=
  searchToks [.lit "public".data, .many1 jsSpace, .lit "class".data] code.data ||
  searchToks [.lit "private".data, .many1 jsSpace, .lit "void".data] code.data ||
  searchToks [.lit "import".data, .many1 jsSpace, .lit "java.".data] code.data

/-- `/using\s+System|namespace\s+\w+|public\s+class/` (csharp). -/
def csharpTest (code : String) : Bool :=
  searchToks [.lit "using".data, .many1 jsSpace, .lit "System".data] code.data ||
  searchToks [.lit "namespace".data, .many1 jsSpace, .many1 wordChar] code.data ||
  searchToks [.lit "public".data, .many1 jsSpace, .lit "class".data] code.data

/-- `/package\s+\w+|func\s+\w+|import\s+\(/` (go). -/
def goTest (code : String) : Bool :=
  searchToks [.lit "package".data, .many1 jsSpace, .many1 wordChar] code.data ||
  searchToks [.lit "func".data, .many1 jsSpace, .many1 wordChar] code.data ||
  searchToks [.lit "import".data, .many1 jsSpace, .lit "(".data] code.data

/-- `/fn\s+\w+|let\s+mut|use\s+std::/` (rust). -/
def rustTest (code : String) : Bool :=
  searchToks [.lit "fn".data, .many1 jsSpace, .many1 wordChar] code.data ||
  searchToks [.lit "let".data, .many1 jsSpace, .lit "mut".data] code.data ||
  searchToks [.lit "use".data, .many1 jsSpace, .lit "std::".data] code.data

/-- `/#include\s*<|std::|cout|cin/` (cpp). -/
def cppTest (code : String) : Bool :=
  searchToks [.lit "#include".data, .many jsSpace, .lit "<".data] code.data ||
  containsSub "std::".data code.data || containsSub "cout".data code.data ||
  containsSub "cin".data code.data

/-- `/#include\s*<stdio\.h>|printf|scanf/` (c). -/
def cTest (code : String) : Bool :=
  searchToks [.lit "#include".data, .many jsSpace, .lit "<stdio.h>".data] code.data ||
  containsSub "printf".data code.data || containsSub "scanf".data code.data

/-- `/<html|<!DOCTYPE|<div|<span/` (html). -/
def htmlTest (code : String) : Bool :=
  containsSub "<html".data code.data || containsSub "<!DOCTYPE".data code.data ||
  containsSub "<div".data code.data || containsSub "<span".data code.data

/-- `/\{[^}]*:[^}]*\}|@media|@import/` (css). -/
def cssTest (code : String) : Bool :=
  searchToks [.lit "\x7b".data, .many (fun c => c ≠ '}'), .lit ":".data,
    .many (fun c => c ≠ '}'), .lit "\x7d".data] code.data ||
  containsSub "@media".data code.data || containsSub "@import".data code.data

/-- `/^\s*\{[\s\S]*\}\s*$/` (json): anchored at both ends without `m`, so
after stripping the maximal `\s` runs at both ends the text must start with
`{`, end with `}`, and have length at least 2. -/
def jsonTest (code : String) : Bool :=
  let t := jsTrim code.data
  decide (2 ≤ t.length) && t.headI = '{' && t.getLastI = '}'

/-- `/^[\w-]+:\s*[\w-]/m` (yaml). -/
def yamlTest (code : String) : Bool :=
  searchToksLineStart [.many1 (fun c => wordChar c || c = '-'), .lit ":".data,
    .many jsSpace, .cls (fun c => wordChar c || c = '-')] code.data

/-- `/^#{1,6}\s+|\[.*\]\(.*\)|```/m (markdown): the bounded quantifier
`#{1,6}` is the alternation over one to six literal hashes. -/
def markdownTest (code : String) : Bool :=
  (List.range 6).any (fun j =>
    searchToksLineStart [.lit (List.replicate (j + 1) '#'), .cls jsSpace] code.data) ||
  searchToks [.lit "[".data, .many (fun c => !lineTerm c), .lit "](".data,
    .many (fun c => !lineTerm c), .lit ")".data] code.data ||
  containsSub "```".data code.data

/-- `/SELECT\s+.*\s+FROM|INSERT\s+INTO|UPDATE\s+.*\s+SET/i` (sql): the `i`
flag is modelled by lowercasing the subject and the literals. -/
def sqlTest (code : String) : Bool :=
  let l := code.data.map Char.toLower
  searchToks [.lit "select".data, .many1 jsSpace, .many (fun c => !lineTerm c),
    .many1 jsSpace, .lit "from".data] l ||
  searchToks [.lit "insert".data, .many1 jsSpace, .lit "into".data] l ||
  searchToks [.lit "update".data, .many1 jsSpace, .many (fun c => !lineTerm c),
    .many1 jsSpace, .lit "set".data] l

/-- `/^#!\/bin\/(bash|sh)|echo\s+|export\s+/` (shell): no `m` flag, so the
first alternative is anchored at the string start only. `(bash|sh)` is the
pattern's single capture group. -/
def shellTest (code : String) : Bool :=
  matchToksAt [.lit "#!/bin/bash".data] code.data ||
  matchToksAt [.lit "#!/bin/sh".data] code.data ||
  searchToks [.lit "echo".data, .many1 jsSpace] code.data ||
  searchToks [.lit "export".data, .many1 jsSpace] code.data

/-- `LANGUAGE_PATTERNS` (src/constants/index.ts:105-122) in declaration
order, each with its matcher and its number of regex capture groups (only
`shell`'s `(bash|sh)` is a group). -/
def LANGUAGE_PATTERNS : List (String × (String → Bool) × Nat) :=
  [("javascript", javascriptTest, 0),
   ("typescript", typescriptTest, 0),
   ("python", pythonTest, 0),
   ("java", javaTest, 0),
   ("csharp", csharpTest, 0),
   ("go", goTest, 0),
   ("rust", rustTest, 0),
   ("cpp", cppTest, 0),
   ("c", cTest, 0),
   ("html", htmlTest, 0),
   ("css", cssTest, 0),
   ("json", jsonTest, 0),
   ("yaml", yamlTest, 0),
   ("markdown", markdownTest, 0),
   ("sql", sqlTest, 0),
   ("shell", shellTest, 1)]

/-- `ILanguageDetection` (`{ language?: string; confidence: number }`);
an absent `language` is `none`. -/
structure ILanguageDetection where
  language : Option String
  confidence : ℚ
deriving Repr, DecidableEq

/-- The `detections` array built by `detectLanguage`
(src/services/FormattingService.ts:160-168): for each pattern with
`pattern.test(code)` true, the source computes
`code.match(pattern).length * 0.2` capped at `1.0`. The regexes carry no
`g` flag, so `String.prototype.match` returns the single-match exec array
whose length is `1 +` the pattern's capture-group count; that value — not
the number of occurrences of the pattern — is what the source multiplies
by `0.2`. -/
def languageDetections (code : String) : List (String × ℚ) :=
  LANGUAGE_PATTERNS.filterMap (fun p =>
    if p.2.1 code then
      some (p.1, min (((1 + p.2.2 : ℚ)) * (2 / 10)) 1)
    else none)

/-- The selection step of `detectLanguage`
(src/services/FormattingService.ts:170-177):
`detections.sort((a, b) => b.confidence - a.confidence)` is a stable
descending sort (modelled by insertion sort on `b.2 ≤ a.2`); the best
match is returned only when its confidence exceeds `0.3`. -/
def pickBestDetection (detections : List (String × ℚ)) : ILanguageDetection :=
  match detections.insertionSort (fun a b => b.2 ≤ a.2) with
  | [] => { language := none, confidence := 0 }
  | d :: _ =>
    if d.2 > 3 / 10 then { language := some d.1, confidence := d.2 }
    else { language := none, confidence := 0 }

/-- `FormattingService.detectLanguage` (src/services/FormattingService.ts:153-178):
empty or whitespace-only input yields confidence 0, otherwise the best
scored pattern match is selected. -/
def detectLanguage (code : String) : ILanguageDetection :=
  if code.data = [] || jsTrim code.data = [] then
    { language := none, confidence := 0 }
  else
    pickBestDetection (languageDetections code)

/-! ## Claim-side match counting for the javascript pattern

The claim derives each confidence from "the number of pattern matches in
the string". The following definitions follow the claim's words (JS global
`g`-flag semantics: repeated leftmost matches, alternatives tried in
order, `.*` greedy, matching resumes after each match); they are the
comparison target for `detectLanguage`, not part of the source embedding. -/

/-- The maximal region `.` can span: characters up to the first LineTerminator. -/
def lineRegion (l : List Char) : List Char :=
  l.takeWhile (fun c => !lineTerm c)

/-- Start index of the last occurrence of `needle` in `l`, if any
(greedy `.*` before a literal matches up to the literal's last occurrence). -/
def lastStartOf (needle : List Char) (l : List Char) : Option Nat :=
  ((List.range (l.length + 1)).filter
    (fun i => startsWithL needle (l.drop i))).getLast?

/-- Length of the match of `/function|const|let|var|=>|import.*from/`
beginning exactly at the head of `s`, alternatives in pattern order. -/
def jsAltMatchLen (s : List Char) : Option Nat :=
  if startsWithL "function".data s then some 8
  else if startsWithL "const".data s then some 5
  else if startsWithL "let".data s then some 3
  else if startsWithL "var".data s then some 3
  else if startsWithL "=>".data s then some 2
  else if startsWithL "import".data s then
    match lastStartOf "from".data (lineRegion (s.drop 6)) with
    | some i => some (6 + i + 4)
    | none => none
  else none

/-- Fuelled scan for `claimedJsMatchCount`; every step strictly shortens
the subject, so `s.length` fuel makes the `0` case unreachable, and the
structural recursion lets concrete counts evaluate by `decide`. -/
def claimedJsMatchCountF : Nat → List Char → Nat
  | 0, _ => 0
  | _ + 1, [] => 0
  | f + 1, c :: cs =>
    match jsAltMatchLen (c :: cs) with
    | some n => 1 + claimedJsMatchCountF f ((c :: cs).drop (max n 1))
    | none => claimedJsMatchCountF f cs

/-- Follows the claim's words: the number of (global, non-overlapping,
leftmost-first) matches of the javascript pattern in `s`. -/
def claimedJsMatchCount (s : List Char) : Nat :=
  claimedJsMatchCountF s.length s

/-! ## Chunking (`IChunkingService`, C2)

Only the type contract `IChunkingService`/`ITextChunk` is present in the
reviewed sources (`src/unnamed/part_003:132-198`); no implementation of
`chunkText` is under `src/`. The chunker is therefore modelled from the
spec (§4.4 and §6 of `spec.md`). -/

/-- `ITextChunk` (src/unnamed/part_003:132-137). -/
structure TextChunk where
  content : String
  index : Nat
  hasContext : Bool
  contextPrefix : Option String
deriving Repr, DecidableEq

/-- Split a list into consecutive slices of `n` elements (the last slice may
be shorter). Empty input yields no slices; `n = 0` (rejected by the spec's
`maxSize ≥ MIN_CHUNK_SIZE` precondition) also yields no slices. -/
def splitEvery (n : Nat) (l : List Char) : List (List Char) :=
  if l = [] then []
  else if n = 0 then []
  else l.take n :: splitEvery n (l.drop n)
termination_by l.length
decreasing_by
  rename_i h1 h2
  have hl : 0 < l.length := List.length_pos.mpr h1
  simp [List.length_drop]
  omega

/-- The trailing `n` elements of a list. -/
def takeRightL (n : Nat) (l : List Char) : List Char :=
  l.drop (l.length - n)

/-- Modelled from the spec: missing `ChunkingService` implementation.
Chunks after the first carry a `contextPrefix` of the trailing
`CONTEXT_OVERLAP_SIZE` characters of the previous chunk's content,
prepended to the slice (spec §4.4: "every chunk after the first carries a
bounded 'context overlap' prefix — the trailing CONTEXT_OVERLAP_SIZE
characters of the previous chunk's content"). `prev` is the previous
chunk's content, `idx` the next chunk index. -/
def buildChunksAux : List Char → Nat → List (List Char) → List TextChunk
  | _, _, [] => []
  | prev, idx, s :: rest =>
    let pre := takeRightL CONTEXT_OVERLAP_SIZE prev
    let content := pre ++ s
    { content := ⟨content⟩, index := idx, hasContext := true,
      contextPrefix := some ⟨pre⟩ } :: buildChunksAux content (idx + 1) rest

/-- Modelled from the spec: number the slices, first chunk without overlap
(spec §4.4: "input shorter than maxSize yields exactly one chunk with no
overlap", "Chunk indices are contiguous starting at 0", "zero-length input
yields an empty sequence"). -/
def buildChunksFrom : List (List Char) → List TextChunk
  | [] => []
  | s :: rest =>
    { content := ⟨s⟩, index := 0, hasContext := false, contextPrefix := none } ::
      buildChunksAux s 1 rest

/-- Modelled from the spec: `chunkText(text, maxSize)` — the `naive` mode of
`chunk(text, maxSize, mode)` (spec §4.4/§6): fixed-size split plus context
overlap prefixes. -/
def chunkText (text : String) (maxSize : Nat) : List TextChunk :=
  buildChunksFrom (splitEvery maxSize text.data)

/-- Strip a chunk's context prefix from its content (the round-trip
operation named by the claim). -/
def stripContext (c : TextChunk) : List Char :=
  match c.contextPrefix with
  | some p => c.content.data.drop p.length
  | none => c.content.data

/-! ## `FormattingService` output formatting (C4)

The external library capabilities (`marked.parse`, `highlight.js`) are
passed as records whose operations may fail (`Except`), modelling thrown
exceptions; every other step of the source is a pure total string
transform. -/

/-- The markdown renderer capability (`marked.parse`); rendering may throw. -/
structure Renderer where
  parse : String → Except String String

/-- The `highlight.js` capability: `getLanguage` (is the hint known),
`highlight` and `highlightAuto`, both of which may throw. -/
structure Hljs where
  getLanguage : String → Bool
  highlight : String → String → Except String String
  highlightAuto : String → Except String String

/-- `FormattingService.highlightCode` (src/services/FormattingService.ts:183-199):
tries the hinted highlighter when the hint is a known non-empty language,
otherwise auto-detects; any thrown error is caught and the code is returned
markup-escaped. Total for every input. -/
def highlightCode (hl : Hljs) (code : String) (language : String) : String :=
  let attempt :=
    if language ≠ "" && hl.getLanguage language then hl.highlight code language
    else hl.highlightAuto code
  match attempt with
  | .ok v => v
  | .error _ => escapeHtml code

/-- Global regex replacement driver: `tryAt s` returns `some (n, repl)` when
a match of length `n ≥ 1` starts at the head of `s`, in which case `repl`
is emitted and scanning resumes after the match (JS `String.replace` with a
`g` flag does not rescan replacements); otherwise the head character is
kept and scanning advances by one. -/
def globalReplace (tryAt : List Char → Option (Nat × List Char)) : List Char → List Char
  | [] => []
  | c :: cs =>
    match tryAt (c :: cs) with
    | some (n, repl) => repl ++ globalReplace tryAt ((c :: cs).drop (max n 1))
    | none => c :: globalReplace tryAt cs
termination_by l => l.length
decreasing_by
  all_goals simp_arith [List.length_drop]

/-- Match of ``/```(\w+)?\s*([\s\S]*?)```/`` at the head of the text, with the
replacement computed by the callback at
src/services/FormattingService.ts:87-90: the explicit tag, or else the
detected language, or else none; the body is trimmed and re-fenced. The
optional `(\w+)?` and the greedy `\s*` are deterministic here because
neither class contains a backtick, and the lazy body ends at the earliest
closing fence. -/
def fenceTry (s : List Char) : Option (Nat × List Char) :=
  if startsWithL "```".data s then
    let r0 := s.drop 3
    let lang := r0.takeWhile wordChar
    let r1 := r0.drop lang.length
    let ws := r1.takeWhile jsSpace
    let r2 := r1.drop ws.length
    match findLit "```".data r2 with
    | some (code, _) =>
      let detectedLang :=
        if lang ≠ [] then lang
        else
          match (detectLanguage ⟨code⟩).language with
          | some l => l.data
          | none => []
      some (3 + lang.length + ws.length + code.length + 3,
        "```".data ++ detectedLang ++ ['\n'] ++ jsTrim code ++ ['\n'] ++ "```".data)
    | none => none
  else none

/-- Match of `/<function_results>([\s\S]*?)<\/function_results>/` at the head
of the text, replaced per src/services/FormattingService.ts:93-98 by a
collapsible details block around a plain fence. -/
def functionResultsTry (s : List Char) : Option (Nat × List Char) :=
  let openTag := "<function_results>".data
  let closeTag := "</function_results>".data
  if startsWithL openTag s then
    match findLit closeTag (s.drop openTag.length) with
    | some (content, _) =>
      some (openTag.length + content.length + closeTag.length,
        "<details>\n<summary>Function Results</summary>\n\n```\n".data ++
          jsTrim content ++ "\n```\n</details>\n".data)
    | none => none
  else none

/-- `attrs.match(/name="([^"]*)"/i)`: the captured value after the earliest
case-insensitive `name="`, up to the next `"` (which must exist). -/
def attrCapture (name : List Char) (attrs : List Char) : Option (List Char) :=
  match findCiRest (name ++ "=\"".data) attrs with
  | some rest =>
    let v := rest.takeWhile (fun c => c ≠ '"')
    if rest.drop v.length = [] then none else some v
  | none => none

/-- Match of `/<augment_code_snippet([^>]*)>([\s\S]*?)<\/augment_code_snippet>/`
at the head of the text, replaced per
src/services/FormattingService.ts:101-110: `path` defaults to `unknown`,
`mode` to `EXCERPT`, and the inner content is trimmed. -/
def snippetTry (s : List Char) : Option (Nat × List Char) :=
  let openTag := "<augment_code_snippet".data
  let closeTag := "</augment_code_snippet>".data
  if startsWithL openTag s then
    let r0 := s.drop openTag.length
    let attrs := r0.takeWhile (fun c => c ≠ '>')
    if r0.drop attrs.length = [] then none
    else
      match findLit closeTag (r0.drop (attrs.length + 1)) with
      | some (content, _) =>
        let path := (attrCapture "path".data attrs).getD "unknown".data
        let mode := (attrCapture "mode".data attrs).getD "EXCERPT".data
        some (openTag.length + attrs.length + 1 + content.length + closeTag.length,
          "<augment_code_snippet path=\"".data ++ path ++ "\" mode=\"".data ++
            mode ++ "\">\n".data ++ jsTrim content ++
            "\n</augment_code_snippet>".data)
      | none => none
  else none

/-- `FormattingService.enhanceOutput` (src/services/FormattingService.ts:83-113):
three sequential global replaces — fence normalization, function-results
reflow, snippet reflow. A pure total transform. -/
def enhanceOutput (text : String) : String :=
  ⟨globalReplace snippetTry
    (globalReplace functionResultsTry
      (globalReplace fenceTry text.data))⟩

/-- `FormattingService.formatMarkdown` (src/services/FormattingService.ts:118-120). -/
def formatMarkdown (text : String) : String :=
  enhanceOutput text

/-- Match of `/<pre><code class="language-(\w+)">([\s\S]*?)<\/code><\/pre>/`
at the head of the rendered markup, replaced per
src/services/FormattingService.ts:130-141. The callback's inner `try` can
never fire because `highlightCode` is total. -/
def preCodeTry (hl : Hljs) (s : List Char) : Option (Nat × List Char) :=
  let openLit := "<pre><code class=\"language-".data
  let closeLit := "</code></pre>".data
  if startsWithL openLit s then
    let r0 := s.drop openLit.length
    let lang := r0.takeWhile wordChar
    if lang = [] then none
    else if startsWithL "\">".data (r0.drop lang.length) then
      match findLit closeLit (r0.drop (lang.length + 2)) with
      | some (code, _) =>
        let highlighted := highlightCode hl ⟨code⟩ ⟨lang⟩
        some (openLit.length + lang.length + 2 + code.length + closeLit.length,
          "<pre><code class=\"language-".data ++ lang ++ " hljs\">".data ++
            highlighted.data ++ "</code></pre>".data)
      | none => none
    else none
  else none

/-- `FormattingService.formatHTML` (src/services/FormattingService.ts:125-148):
renders through `marked.parse` and post-processes rendered code blocks; a
rendering failure is caught and the *input text* is returned. -/
def formatHTML (r : Renderer) (hl : Hljs) (text : String) : String :=
  match r.parse text with
  | .ok html => ⟨globalReplace (preCodeTry hl) html.data⟩
  | .error _ => text

/-- `OutputFormat` (src/unnamed/part_003:29). -/
inductive OutputFormat where
  | default
  | enhanced
  | markdown
  | html
deriving Repr, DecidableEq

/-- `ProcessingError` as thrown by `formatOutput`
(src/services/FormattingService.ts:74): message, code, and the requested
format as details. -/
structure ProcessingError where
  message : String
  code : String
  format : OutputFormat
deriving Repr, DecidableEq

/-- `FormattingService.formatOutput` (src/services/FormattingService.ts:52-78).
The surrounding `try/catch` would wrap a thrown error into a
`ProcessingError` carrying the format, hence the `Except` result type; but
every branch of the `switch` is total (`formatHTML` catches its own
renderer failures), so no branch ever produces the error. Falsy empty text
short-circuits to itself. -/
def formatOutput (r : Renderer) (hl : Hljs) (text : String)
    (format : OutputFormat) : Except ProcessingError String :=
  if text = "" then .ok text
  else
    match format with
    | .default => .ok text
    | .enhanced => .ok (enhanceOutput text)
    | .markdown => .ok (formatMarkdown text)
    | .html => .ok (formatHTML r hl text)

/-! ## Theorems -/

/-- C10: `incrementExchangeCount` adds exactly one to the exchange counter
and leaves the session start time, last refresh time, and files-processed
counter unchanged; `incrementFilesProcessed` adds exactly one to the
files-processed counter and leaves the other three fields unchanged. -/
theorem increments_are_framed (st : ContextState) :
    (incrementExchangeCount st).contextExchangeCount = st.contextExchangeCount + 1 ∧
    (incrementExchangeCount st).sessionStartTime = st.sessionStartTime ∧
    (incrementExchangeCount st).lastContextRefresh = st.lastContextRefresh ∧
    (incrementExchangeCount st).filesProcessed = st.filesProcessed ∧
    (incrementFilesProcessed st).filesProcessed = st.filesProcessed + 1 ∧
    (incrementFilesProcessed st).contextExchangeCount = st.contextExchangeCount ∧
    (incrementFilesProcessed st).sessionStartTime = st.sessionStartTime ∧
    (incrementFilesProcessed st).lastContextRefresh = st.lastContextRefresh :=
  ⟨rfl, rfl, rfl, rfl, rfl, rfl, rfl, rfl⟩

/-- C9: importing the exported session record restores the state exactly,
and `importSessionData` leaves any field absent from its argument
unchanged. -/
theorem sessionData_round_trip (st : ContextState) :
    importSessionData st (exportSessionData st) = st ∧
    ∀ d : SessionDataRec,
      (d.contextExchangeCount = none →
        (importSessionData st d).contextExchangeCount = st.contextExchangeCount) ∧
      (d.sessionStartTime = none →
        (importSessionData st d).sessionStartTime = st.sessionStartTime) ∧
      (d.lastContextRefresh = none →
        (importSessionData st d).lastContextRefresh = st.lastContextRefresh) ∧
      (d.filesProcessed = none →
        (importSessionData st d).filesProcessed = st.filesProcessed) := by
  refine ⟨rfl, fun d => ⟨?_, ?_, ?_, ?_⟩⟩ <;>
    intro h <;> simp [importSessionData, h]

/-- Witness for `sessionData_round_trip` at a concrete state and a
partial session record. -/
theorem sessionData_round_trip_witness :
    importSessionData ⟨1, 2, 3, 4⟩ (exportSessionData ⟨1, 2, 3, 4⟩) = ⟨1, 2, 3, 4⟩ ∧
    (importSessionData ⟨1, 2, 3, 4⟩ ⟨none, some 9, none, some 7⟩).contextExchangeCount = 1 :=
  ⟨(sessionData_round_trip ⟨1, 2, 3, 4⟩).1,
    ((sessionData_round_trip ⟨1, 2, 3, 4⟩).2 ⟨none, some 9, none, some 7⟩).1 rfl⟩

/-- C8: for a positive threshold, `getContextHealth` is `red` exactly when
the exchange count reaches the threshold (equivalently, exactly when
`shouldRefreshContext` holds), `yellow` exactly when the count is at least
`floor(0.7 * threshold)` but below the threshold, and `green` exactly when
it is below `floor(0.7 * threshold)`. -/
theorem contextHealth_thresholds (threshold : Nat) (st : ContextState)
    (hpos : 0 < threshold) :
    ((getContextHealth threshold st).status = .red ↔
      threshold ≤ st.contextExchangeCount) ∧
    ((getContextHealth threshold st).status = .red ↔
      shouldRefreshContext threshold st = true) ∧
    ((getContextHealth threshold st).status = .yellow ↔
      7 * threshold / 10 ≤ st.contextExchangeCount ∧
        st.contextExchangeCount < threshold) ∧
    ((getContextHealth threshold st).status = .green ↔
      st.contextExchangeCount < 7 * threshold / 10) := by
  unfold getContextHealth shouldRefreshContext
  dsimp only
  split_ifs with h1 h2 <;> refine ⟨?_, ?_, ?_, ?_⟩ <;>
    (try simp_all [Nat.not_le]) <;> omega

/-- Witness for `contextHealth_thresholds` at the default threshold `10` and
a count of `9` exchanges. -/
theorem contextHealth_thresholds_witness :
    ((getContextHealth 10 ⟨9, 0, 0, 0⟩).status = .red ↔ (10 : Nat) ≤ 9) ∧
    ((getContextHealth 10 ⟨9, 0, 0, 0⟩).status = .red ↔
      shouldRefreshContext 10 ⟨9, 0, 0, 0⟩ = true) ∧
    ((getContextHealth 10 ⟨9, 0, 0, 0⟩).status = .yellow ↔
      7 * 10 / 10 ≤ 9 ∧ 9 < 10) ∧
    ((getContextHealth 10 ⟨9, 0, 0, 0⟩).status = .green ↔ 9 < 7 * 10 / 10) :=
  contextHealth_thresholds 10 ⟨9, 0, 0, 0⟩ (by decide)

/-- C4 counterexample: a failing transform inside `formatOutput` does not
surface as a `ProcessingError`. With a renderer whose `parse` throws,
`formatOutput(text, 'html')` succeeds and hands the caller the raw,
unformatted input text. -/
theorem formatOutput_swallows_render_failure :
    (Renderer.mk (fun _ => .error "boom")).parse "# hi" = .error "boom" ∧
    formatOutput ⟨fun _ => .error "boom"⟩
      ⟨fun _ => false, fun _ _ => .error "", fun _ => .error ""⟩
      "# hi" .html = .ok "# hi" :=
  ⟨rfl, rfl⟩

/-- C4 (amended): `formatOutput` with format `default` returns its input
unchanged; every format returns a success for every renderer, highlighter
and text (no branch raises a `ProcessingError`, because `formatHTML`
catches its own renderer failures); and in particular when the markdown
renderer fails, the `html` path succeeds with the unformatted input text
rather than propagating an error. -/
theorem formatOutput_error_policy (r : Renderer) (hl : Hljs) (text : String) :
    formatOutput r hl text .default = .ok text ∧
    (∀ format, ∃ out, formatOutput r hl text format = .ok out) ∧
    (∀ e, r.parse text = .error e → formatOutput r hl text .html = .ok text) := by
  refine ⟨?_, ?_, ?_⟩
  · by_cases h : text = "" <;> simp [formatOutput, h]
  · intro format
    by_cases h : text = ""
    · exact ⟨text, by simp [formatOutput, h]⟩
    · cases format with
      | default => exact ⟨text, by simp [formatOutput, h]⟩
      | enhanced => exact ⟨enhanceOutput text, by simp [formatOutput, h]⟩
      | markdown => exact ⟨formatMarkdown text, by simp [formatOutput, h]⟩
      | html => exact ⟨formatHTML r hl text, by simp [formatOutput, h]⟩
  · intro e he
    by_cases h : text = ""
    · simp [formatOutput, h]
    · simp [formatOutput, h, formatHTML, he]

/-- Witness for `formatOutput_error_policy` with a concretely failing
renderer on concrete text. -/
theorem formatOutput_error_policy_witness :
    formatOutput ⟨fun _ => .error "parse exploded"⟩
      ⟨fun _ => true, fun c _ => .ok c, fun c => .ok c⟩
      "abc" .html = .ok "abc" :=
  (formatOutput_error_policy ⟨fun _ => .error "parse exploded"⟩
    ⟨fun _ => true, fun c _ => .ok c, fun c => .ok c⟩ "abc").2.2
    "parse exploded" rfl

/-- After one pass of `fixDQAux`, a second pass (from the same previous
character) changes nothing: the inserted backslashes shield every quote. -/
theorem fixDQAux_idem (l : List Char) : ∀ p, fixDQAux p (fixDQAux p l) = fixDQAux p l := by
  induction l with
  | nil => intro _; rfl
  | cons c rest ih =>
    intro p
    by_cases hq : c = '"'
    · subst hq
      by_cases hp : p = some '\\'
      · subst hp
        simp [fixDQAux, ih]
      · simp [fixDQAux, hp, ih]
    · simp [fixDQAux, hq, ih]

/-- C5: `escapeQuotes` (the source's `fixDoubleQuotes`) is idempotent —
escaping an already-escaped string changes nothing — and maps the empty
string to the empty string. -/
theorem escapeQuotes_idempotent (s : String) :
    fixDoubleQuotes (fixDoubleQuotes s) = fixDoubleQuotes s ∧
    fixDoubleQuotes "" = "" :=
  ⟨congrArg String.mk (fixDQAux_idem s.data none), rfl⟩

/-- `replaceChar` distributes over list append. -/
theorem replaceChar_append (t : Char) (r a b : List Char) :
    replaceChar t r (a ++ b) = replaceChar t r a ++ replaceChar t r b := by
  induction a with
  | nil => rfl
  | cons c cs ih => simp [replaceChar, ih]

/-- One step of the `sanitizeText` pipeline: the five passes act on the
head character independently of the tail. -/
theorem sanitizeText_cons (c : Char) (cs : List Char) :
    (sanitizeText ⟨c :: cs⟩).data =
      sanitizeTextCharMap c ++ (sanitizeText ⟨cs⟩).data := by
  by_cases h1 : c = '<'
  · subst h1; rfl
  · by_cases h2 : c = '>'
    · subst h2; rfl
    · by_cases h3 : c = '"'
      · subst h3; rfl
      · by_cases h4 : c = '\''
        · subst h4; rfl
        · by_cases h5 : c = '/'
          · subst h5; rfl
          · simp [sanitizeText, sanitizeTextCharMap, replaceChar, replaceChar_append,
              h1, h2, h3, h4, h5]

/-- One step of the `escapeHtml` pipeline. -/
theorem escapeHtml_cons (c : Char) (cs : List Char) :
    (escapeHtml ⟨c :: cs⟩).data =
      escapeHtmlCharMap c ++ (escapeHtml ⟨cs⟩).data := by
  by_cases h1 : c = '&'
  · subst h1; rfl
  · by_cases h2 : c = '<'
    · subst h2; rfl
    · by_cases h3 : c = '>'
      · subst h3; rfl
      · by_cases h4 : c = '"'
        · subst h4; rfl
        · by_cases h5 : c = '\''
          · subst h5; rfl
          · simp [escapeHtml, escapeHtmlCharMap, replaceChar, replaceChar_append,
              h1, h2, h3, h4, h5]

/-- `sanitizeText` is the single per-character substitution
`sanitizeTextCharMap`. -/
theorem sanitizeText_eq_bind (s : String) :
    (sanitizeText s).data = s.data.flatMap sanitizeTextCharMap := by
  obtain ⟨l⟩ := s
  induction l with
  | nil => rfl
  | cons c cs ih => rw [show (String.mk (c :: cs)).data = c :: cs from rfl,
      List.flatMap_cons, ← ih, sanitizeText_cons]

/-- `escapeHtml` is the single per-character substitution
`escapeHtmlCharMap`. -/
theorem escapeHtml_eq_bind (s : String) :
    (escapeHtml s).data = s.data.flatMap escapeHtmlCharMap := by
  obtain ⟨l⟩ := s
  induction l with
  | nil => rfl
  | cons c cs ih => rw [show (String.mk (c :: cs)).data = c :: cs from rfl,
      List.flatMap_cons, ← ih, escapeHtml_cons]

/-- C3 counterexample: the display sanitizer (`ValidationService.sanitizeText`)
does *not* escape `&` — it leaves `"&"` unchanged instead of producing
`"&amp;"` — and it escapes a sixth character, `/`. -/
theorem sanitizeText_ampersand_unescaped :
    sanitizeText "&" = "&" ∧ sanitizeText "&" ≠ "&amp;" ∧
    sanitizeText "/" = "&#x2F;" :=
  ⟨rfl, by decide, rfl⟩

/-- C3 (amended): each sanitizer acts as a single per-character
substitution, so no output of one replacement is re-escaped by a later
one. `ValidationService.sanitizeText` escapes exactly `<`, `>`, `"`, `'`
and `/` (leaving `&` alone), while `FormattingService.escapeHtml` escapes
exactly the five markup-unsafe characters `&`, `<`, `>`, `"`, `'`, with
`&` handled first. -/
theorem sanitizers_charwise (s : String) :
    (sanitizeText s).data = s.data.flatMap sanitizeTextCharMap ∧
    (escapeHtml s).data = s.data.flatMap escapeHtmlCharMap ∧
    sanitizeTextCharMap '&' = ['&'] ∧
    escapeHtmlCharMap '&' = "&amp;".data :=
  ⟨sanitizeText_eq_bind s, escapeHtml_eq_bind s, rfl, rfl⟩

/-- A list is a prefix of itself followed by anything. -/
theorem startsWithL_append_self (n b : List Char) :
    startsWithL n (n ++ b) = true := by
  induction n with
  | nil => rfl
  | cons c cs ih => simp [startsWithL, ih]

/-- Occurrence is preserved by prepending arbitrary text. -/
theorem containsSub_append_left (n a s : List Char)
    (h : containsSub n s = true) : containsSub n (a ++ s) = true := by
  induction a with
  | nil => simpa using h
  | cons c cs ih => simp [containsSub, ih]

/-- A needle occurs at the very start of itself followed by anything. -/
theorem containsSub_self_append (n b : List Char) :
    containsSub n (n ++ b) = true := by
  cases hnb : n ++ b with
  | nil =>
    have hn : n = [] := by
      cases n with
      | nil => rfl
      | cons x xs => simp at hnb
    subst hn
    simp [containsSub, startsWithL]
  | cons c t =>
    rw [containsSub, ← hnb, startsWithL_append_self]
    simp

/-- C6: `checkInputSize` reports `isLarge = true` exactly when the text's
character length strictly exceeds the configured maximum
(`VALIDATION_LIMITS.MAX_SAFE_INPUT_SIZE`), and when large its suggestion
states the exact character count, the configured maximum, and a
recommended chunk count equal to `ceil(length / maxSafeSize)`. -/
theorem checkInputSize_spec (text : String) :
    ((checkInputSize text).isLarge = true ↔ MAX_SAFE_INPUT_SIZE < text.length) ∧
    (MAX_SAFE_INPUT_SIZE < text.length →
      ∃ s, (checkInputSize text).suggestion = some s ∧
        containsSub (toString text.length).data s.data = true ∧
        containsSub (toString MAX_SAFE_INPUT_SIZE).data s.data = true ∧
        containsSub
          (toString ((text.length + MAX_SAFE_INPUT_SIZE - 1) / MAX_SAFE_INPUT_SIZE)).data
          s.data = true) := by
  constructor
  · by_cases h : MAX_SAFE_INPUT_SIZE < text.length <;> simp [checkInputSize, h]
  · intro h
    refine ⟨"Input is " ++ toString text.length ++ " characters (recommended max: " ++
        toString MAX_SAFE_INPUT_SIZE ++ "). " ++ "Consider breaking this into " ++
        toString ((text.length + MAX_SAFE_INPUT_SIZE - 1) / MAX_SAFE_INPUT_SIZE) ++
        " smaller tasks to avoid " ++ "\"too large input\" errors and credit consumption.",
      by simp [checkInputSize, h], ?_, ?_, ?_⟩ <;>
      simp only [String.data_append, List.append_assoc]
    · exact containsSub_append_left _ _ _ (containsSub_self_append _ _)
    · exact containsSub_append_left _ _ _ (containsSub_append_left _ _ _
        (containsSub_append_left _ _ _ (containsSub_self_append _ _)))
    · exact containsSub_append_left _ _ _ (containsSub_append_left _ _ _
        (containsSub_append_left _ _ _ (containsSub_append_left _ _ _
          (containsSub_append_left _ _ _ (containsSub_append_left _ _ _
            (containsSub_self_append _ _))))))

/-- Witness for `checkInputSize_spec` on a ten-thousand-character input
(scenario B of the spec: 10000 characters against the 8000 maximum). -/
theorem checkInputSize_spec_witness :
    ∃ s, (checkInputSize ⟨List.replicate 10000 'x'⟩).suggestion = some s ∧
      containsSub (toString (String.mk (List.replicate 10000 'x')).length).data s.data = true ∧
      containsSub (toString MAX_SAFE_INPUT_SIZE).data s.data = true ∧
      containsSub
        (toString (((String.mk (List.replicate 10000 'x')).length + MAX_SAFE_INPUT_SIZE - 1) / MAX_SAFE_INPUT_SIZE)).data
        s.data = true :=
  (checkInputSize_spec ⟨List.replicate 10000 'x'⟩).2
    (by show MAX_SAFE_INPUT_SIZE < (List.replicate 10000 'x').length
        rw [List.length_replicate]
        norm_num [MAX_SAFE_INPUT_SIZE])

/-- Concatenating the slices of `splitEvery` recovers the original list
(for a positive slice size). -/
theorem splitEvery_flatten (n : Nat) (hn : n ≠ 0) :
    ∀ l : List Char, (splitEvery n l).flatten = l := by
  suffices h : ∀ (k : Nat) (l : List Char), l.length ≤ k → (splitEvery n l).flatten = l from
    fun l => h l.length l le_rfl
  intro k
  induction k with
  | zero =>
    intro l hl
    have : l = [] := List.length_eq_zero.mp (Nat.le_zero.mp hl)
    subst this
    rw [splitEvery]
    simp
  | succ k ih =>
    intro l hl
    by_cases hnil : l = []
    · subst hnil
      rw [splitEvery]
      simp
    · rw [splitEvery]
      simp only [hnil, if_false, hn]
      rw [List.flatten_cons]
      rw [ih (l.drop n) (by
        have h1 : 0 < l.length := List.length_pos.mpr hnil
        simp only [List.length_drop]
        omega)]
      exact List.take_append_drop n l

/-- Stripping each context prefix from the chunks built by
`buildChunksAux` recovers exactly the underlying slices. -/
theorem buildChunksAux_strip (slices : List (List Char)) :
    ∀ prev idx,
      ((buildChunksAux prev idx slices).map stripContext).flatten = slices.flatten := by
  induction slices with
  | nil => intro _ _; rfl
  | cons s rest ih =>
    intro prev idx
    have h1 : stripContext
        ⟨⟨takeRightL CONTEXT_OVERLAP_SIZE prev ++ s⟩, idx, true,
          some ⟨takeRightL CONTEXT_OVERLAP_SIZE prev⟩⟩ = s := by
      show (takeRightL CONTEXT_OVERLAP_SIZE prev ++ s).drop
        (takeRightL CONTEXT_OVERLAP_SIZE prev).length = s
      exact List.drop_left _ _
    rw [buildChunksAux]
    rw [List.map_cons, List.flatten_cons, h1, ih, List.flatten_cons]

/-- Stripping context prefixes from the numbered chunks recovers the
slices. -/
theorem buildChunksFrom_strip (slices : List (List Char)) :
    ((buildChunksFrom slices).map stripContext).flatten = slices.flatten := by
  cases slices with
  | nil => rfl
  | cons s rest =>
    rw [buildChunksFrom, List.map_cons, List.flatten_cons, buildChunksAux_strip]
    rfl

/-- C2: for any text and any `maxSize` of at least
`VALIDATION_LIMITS.MIN_CHUNK_SIZE`, concatenating the chunks of the naive
`chunkText` after stripping each chunk's `contextPrefix` reconstructs the
original text exactly. (`chunkText` is modelled from the spec: only its
`IChunkingService` type contract appears in the reviewed sources.) -/
theorem chunk_round_trip (text : String) (maxSize : Nat)
    (h : MIN_CHUNK_SIZE ≤ maxSize) :
    ((chunkText text maxSize).map stripContext).flatten = text.data := by
  have hn : maxSize ≠ 0 := by
    have h0 : (0 : Nat) < MIN_CHUNK_SIZE := by norm_num [MIN_CHUNK_SIZE]
    omega
  rw [chunkText, buildChunksFrom_strip, splitEvery_flatten maxSize hn]

/-- Witness for `chunk_round_trip` on a concrete multi-chunk input: 2500
characters at the minimum chunk size produce chunks that round-trip. -/
theorem chunk_round_trip_witness :
    ((chunkText ⟨List.replicate 2500 'a'⟩ MIN_CHUNK_SIZE).map stripContext).flatten =
      (String.mk (List.replicate 2500 'a')).data :=
  chunk_round_trip ⟨List.replicate 2500 'a'⟩ MIN_CHUNK_SIZE le_rfl

/-- Every entry of the `detections` array has confidence in `[0, 1]`. -/
theorem languageDetections_bounds (code : String) :
    ∀ d ∈ languageDetections code, 0 ≤ d.2 ∧ d.2 ≤ 1 := by
  intro d hd
  rw [languageDetections, List.mem_filterMap] at hd
  obtain ⟨p, _, hpd⟩ := hd
  by_cases ht : p.2.1 code
  · simp only [if_pos ht, Option.some.injEq] at hpd
    subst hpd
    constructor
    · refine le_min ?_ (by norm_num)
      positivity
    · exact min_le_right _ _
  · simp [ht] at hpd

/-- The selected detection keeps its confidence inside the bounds of the
candidate list (or degrades to confidence 0). -/
theorem pickBestDetection_bounds (dets : List (String × ℚ))
    (hdets : ∀ d ∈ dets, 0 ≤ d.2 ∧ d.2 ≤ 1) :
    0 ≤ (pickBestDetection dets).confidence ∧
      (pickBestDetection dets).confidence ≤ 1 := by
  rcases hs : dets.insertionSort (fun a b => b.2 ≤ a.2) with _ | ⟨d, tail⟩
  · rw [pickBestDetection, hs]
    norm_num
  · have hdm : d ∈ dets := by
      have hmem : d ∈ dets.insertionSort (fun a b => b.2 ≤ a.2) := by
        rw [hs]
        exact List.mem_cons_self _ _
      exact ((List.perm_insertionSort _ dets).mem_iff).mp hmem
    have hb := hdets d hdm
    rw [pickBestDetection, hs]
    by_cases hgt : d.2 > 3 / 10
    · simpa [hgt] using hb
    · simp [hgt]

/-- C7: the confidence returned by `detectLanguage` always lies in `[0, 1]`,
and empty or all-whitespace input yields confidence 0 with no language.
(`detectLanguage` is a total Lean function, so it cannot throw.) -/
theorem detectLanguage_confidence_bounds (code : String) :
    0 ≤ (detectLanguage code).confidence ∧
    (detectLanguage code).confidence ≤ 1 ∧
    (jsTrim code.data = [] →
      detectLanguage code = { language := none, confidence := 0 }) := by
  refine ⟨?_, ?_, ?_⟩
  · rw [detectLanguage]
    split
    · norm_num
    · exact (pickBestDetection_bounds _ (languageDetections_bounds code)).1
  · rw [detectLanguage]
    split
    · norm_num
    · exact (pickBestDetection_bounds _ (languageDetections_bounds code)).2
  · intro ht
    simp [detectLanguage, ht]

/-- Witness for `detectLanguage_confidence_bounds` on all-whitespace input. -/
theorem detectLanguage_confidence_bounds_witness :
    0 ≤ (detectLanguage "  ").confidence ∧
    (detectLanguage "  ").confidence ≤ 1 ∧
    detectLanguage "  " = { language := none, confidence := 0 } :=
  ⟨(detectLanguage_confidence_bounds "  ").1,
    (detectLanguage_confidence_bounds "  ").2.1,
    (detectLanguage_confidence_bounds "  ").2.2 (by decide)⟩

/-- C1: evaluation of `detectLanguage` at the input `"const a; const b"`.
The javascript pattern `/function|const|let|var|=>|import.*from/` has two
matches in this string, so under the claim the confidence would be
`min(2 × 0.2, 1) = 0.4 > 0.3` and `detectLanguage` would return
`javascript`; the code instead computes `matches.length = 1` from the
non-global `String.match` (confidence 0.2, below the 0.3 threshold) and
returns confidence 0 with no language. -/
theorem detectLanguage_match_count_bug :
    claimedJsMatchCount "const a; const b".data = 2 ∧
    min ((2 : ℚ) * (2 / 10)) 1 > 3 / 10 ∧
    javascriptTest "const a; const b" = true ∧
    detectLanguage "const a; const b" = { language := none, confidence := 0 } := by
  have hjs : javascriptTest "const a; const b" = true := by decide
  have h2 : typescriptTest "const a; const b" = false := by decide
  have h3 : pythonTest "const a; const b" = false := by decide
  have h4 : javaTest "const a; const b" = false := by decide
  have h5 : csharpTest "const a; const b" = false := by decide
  have h6 : goTest "const a; const b" = false := by decide
  have h7 : rustTest "const a; const b" = false := by decide
  have h8 : cppTest "const a; const b" = false := by decide
  have h9 : cTest "const a; const b" = false := by decide
  have h10 : htmlTest "const a; const b" = false := by decide
  have h11 : cssTest "const a; const b" = false := by decide
  have h12 : jsonTest "const a; const b" = false := by decide
  have h13 : yamlTest "const a; const b" = false := by decide
  have h14 : markdownTest "const a; const b" = false := by decide
  have h15 : sqlTest "const a; const b" = false := by decide
  have h16 : shellTest "const a; const b" = false := by decide
  have hdets : languageDetections "const a; const b" = [("javascript", 1 / 5)] := by
    rw [languageDetections, LANGUAGE_PATTERNS]
    norm_num [List.filterMap_cons, hjs, h2, h3, h4, h5, h6, h7, h8, h9, h10,
      h11, h12, h13, h14, h15, h16]
  refine ⟨by decide, by rw [min_def]; norm_num, hjs, ?_⟩
  have hguard : ("const a; const b".data = [] ||
      jsTrim "const a; const b".data = []) = false := by decide
  rw [detectLanguage]
  simp only [hguard, Bool.false_eq_true, if_false, hdets]
  rw [pickBestDetection]
  norm_num [List.insertionSort, List.orderedInsert]
